import Mathlib

/-!
Verification development for the information-extraction engine in
`src/extractor.py`.  The Python source is shallowly embedded below: every
Python function keeps its name, regular expressions are hand-compiled into
explicit backtracking recognizers (the original pattern is quoted in a
comment above each recognizer, and the backtracking order — leftmost
search position, ordered alternation, greedy/lazy quantifiers — follows
Python's `re` semantics), and the ambient clock `now_ts()` is modelled as
an explicit `now : String` parameter.  Character predicates model Python's
ASCII behaviour, which covers all inputs considered here.
-/

namespace ChatExtractor

/-! ### Character helpers (ASCII models of Python predicates) -/

/-- Python `\s` / `str.isspace` on ASCII: space, tab, newline, carriage
return, vertical tab, form feed. -/
def pySpace (c : Char) : Bool :=
  c = ' ' || c = '\t' || c = '\n' || c = '\r' || c = '\x0b' || c = '\x0c'

/-- Python `\w` on ASCII: letters, digits, underscore. -/
def isWordChar (c : Char) : Bool := c.isAlpha || c.isDigit || c = '_'

def lcChar (c : Char) : Char := c.toLower

def ucChar (c : Char) : Char := c.toUpper

def lowerList (cs : List Char) : List Char := cs.map lcChar

def pyLower (s : String) : String := (lowerList s.toList).asString

def pyUpper (s : String) : String := (s.toList.map ucChar).asString

/-! ### List/string utilities -/

/-- `needle` occurs at the start of the second list (case-sensitive). -/
def startsWithL : List Char → List Char → Bool
  | [], _ => true
  | _ :: _, [] => false
  | a :: as, b :: bs => a = b && startsWithL as bs

/-- Python's substring test `needle in hay`. -/
def containsSub (needle : List Char) : List Char → Bool
  | [] => startsWithL needle []
  | c :: cs => startsWithL needle (c :: cs) || containsSub needle cs

/-- Python `str.lstrip()` (ASCII whitespace). -/
def stripLeftL (cs : List Char) : List Char := cs.dropWhile pySpace

/-- Python `str.rstrip()` (ASCII whitespace). -/
def stripRightL (cs : List Char) : List Char := (cs.reverse.dropWhile pySpace).reverse

/-- Python `str.strip()` (ASCII whitespace). -/
def pyStripL (cs : List Char) : List Char := stripRightL (stripLeftL cs)

def pyStrip (s : String) : String := (pyStripL s.toList).asString

/-- Python slicing `s[:n]`. -/
def pyTake (n : Nat) (s : String) : String := (s.toList.take n).asString

/-- First `some` produced by `f` over the list, in order.  Used to realize
ordered alternation / quantifier backtracking of Python `re`. -/
def firstSome : List α → (α → Option β) → Option β
  | [], _ => none
  | x :: xs, f => match f x with | some b => some b | none => firstSome xs f

/-- Consume a literal case-insensitively, returning the rest. -/
def dropLitCI : List Char → List Char → Option (List Char)
  | [], cs => some cs
  | _ :: _, [] => none
  | a :: as, c :: cs => if lcChar a = lcChar c then dropLitCI as cs else none

/-- Consume a literal case-sensitively, returning the rest. -/
def dropLitCS : List Char → List Char → Option (List Char)
  | [], cs => some cs
  | _ :: _, [] => none
  | a :: as, c :: cs => if a = c then dropLitCS as cs else none

def litCI (s : String) (cs : List Char) : Option (List Char) := dropLitCI s.toList cs

def litCS (s : String) (cs : List Char) : Option (List Char) := dropLitCS s.toList cs

/-- Candidate rests after a greedy class repetition consuming between `mn`
and `mx` characters, longest first (Python greedy `{mn,mx}` order). -/
def runRests (cls : Char → Bool) (mn mx : Nat) (cs : List Char) : List (List Char) :=
  let r := min mx (cs.takeWhile cls).length
  (List.range (r + 1)).filterMap fun i =>
    let k := r - i
    if mn ≤ k then some (cs.drop k) else none

/-- Candidate rests after a lazy class repetition consuming at least `mn`
characters, shortest first (Python lazy `+?` order). -/
def lazyRests (cls : Char → Bool) (mn : Nat) (cs : List Char) : List (List Char) :=
  let r := (cs.takeWhile cls).length
  (List.range (r + 1)).filterMap fun k =>
    if mn ≤ k then some (cs.drop k) else none

/-- Greedy class star whose continuation cannot start with a class
character (deterministic: no backtracking can help). -/
def skipRun (cls : Char → Bool) (cs : List Char) : List Char := cs.dropWhile cls

/-- The characters consumed between a position and a rest of it. -/
def consumed (orig rest : List Char) : List Char := orig.take (orig.length - rest.length)

/-- Try a match attempt at every position left to right (Python
`re.search`), threading the previous character for `\b` checks. -/
def searchPrevAux (f : Option Char → List Char → Option β) : Option Char → List Char → Option β
  | prev, [] => f prev []
  | prev, c :: cs =>
    match f prev (c :: cs) with
    | some b => some b
    | none => searchPrevAux f (some c) cs

def searchPrev (f : Option Char → List Char → Option β) (cs : List Char) : Option β :=
  searchPrevAux f none cs

def isWordOpt : Option Char → Bool
  | none => false
  | some c => isWordChar c

/-- `\b` after a word character: end of input or a non-word character next. -/
def noWordAhead : List Char → Bool
  | [] => true
  | c :: _ => !isWordChar c

/-! ### Sentiment lexicon and classifier (`analyze_sentiment`) -/

def POS_WORDS : List String :=
  ["thank", "thanks", "good", "resolved", "correct", "ok", "okay", "completed"]

def NEG_WORDS : List String :=
  ["error", "issue", "problem", "wrong", "termed", "terminate", "typo", "fix",
   "incorrect", "should be inactive", "should be", "eff"]

/-- src/extractor.py:41-56. -/
def analyze_sentiment (text : String) : String :=
  if text = "" then "Neutral"
  else
    let t := lowerList text.toList
    let pos : Int := POS_WORDS.foldl (fun acc w => if containsSub w.toList t then acc + 1 else acc) 0
    let neg : Int := NEG_WORDS.foldl (fun acc w => if containsSub w.toList t then acc + 1 else acc) 0
    let score := pos - neg
    if score > 0 then "Positive"
    else if score < 0 then "Negative"
    else "Neutral"

/-! ### Normalizers -/

/-- src/extractor.py:58-72.  Python's `if not plan_raw` treats `None` and
the empty string alike. -/
def normalize_plan (plan_raw : Option String) : Option String :=
  match plan_raw with
  | none => none
  | some s =>
    if s = "" then none
    else
      let p := lowerList (pyStripL s.toList)
      if containsSub "hmo".toList p then some "HMO"
      else if containsSub "ppo".toList p then some "PPO"
      else if containsSub "epo".toList p then some "EPO"
      else if containsSub "medicare".toList p || containsSub "medadv".toList p ||
              containsSub "med adv".toList p then some "Medicare Adv"
      else if containsSub "commercial".toList p || containsSub "comm".toList p then some "Commercial"
      else some (pyStrip s)

/-- src/extractor.py:74-84. -/
def normalize_status (status_raw : Option String) : Option String :=
  match status_raw with
  | none => none
  | some s =>
    if s = "" then none
    else
      let t := lowerList (pyStripL s.toList)
      if ["active", "actv", "active from", "active starting", "active frm"].any
           (fun w => containsSub w.toList t) then some "ACTIVE"
      else if ["inactive", "inactivate", "should be inactive"].any
           (fun w => containsSub w.toList t) then some "INACTIVE"
      else if ["term", "termed", "terminated", "term eff", "termed effective"].any
           (fun w => containsSub w.toList t) then some "TERMINATED"
      else some (pyStrip s)

/-! ### Generic date-shape extractor (`extract_date_like`) -/

/-- `\b(\d{1,2}SEP\d{1,2}SEP\d{2,4})\b` where `SEP` is the class `sepOk`
(slash or dash for the first pattern, `\.` for the second).  The leading `\b`
holds iff the previous character is not a word character (the first
matched character is a digit). -/
def numDateAt (sepOk : Char → Bool) (prev : Option Char) (cs : List Char) : Option String :=
  if isWordOpt prev then none
  else
    firstSome (runRests Char.isDigit 1 2 cs) fun r1 =>
    match r1 with
    | c :: r2 =>
      if sepOk c then
        firstSome (runRests Char.isDigit 1 2 r2) fun r3 =>
        match r3 with
        | c2 :: r4 =>
          if sepOk c2 then
            firstSome (runRests Char.isDigit 2 4 r4) fun r5 =>
              if noWordAhead r5 then some (consumed cs r5).asString else none
          else none
        | [] => none
      else none
    | [] => none

/-- Alternatives of `MONTHS_RE` (src/extractor.py:31), per month in the
written order, greedy (longest) suffix candidate first. -/
def monthCands : List (List String) :=
  [["january", "jan"], ["february", "feb"], ["march", "mar"], ["april", "apr"],
   ["may"], ["june", "jun"], ["july", "jul"], ["august", "aug"],
   ["september", "sept", "sep"], ["october", "oct"], ["november", "nov"],
   ["december", "dec"]]

def monthRests (cs : List Char) : List (List Char) :=
  monthCands.foldr (fun ms acc => (ms.filterMap fun m => litCI m cs) ++ acc) []

/-- `\bMONTHS[\s\-\.]*\d{1,2},?\s*\d{4}\b` (case-insensitive).  After the
month: the class run `[\s\-\.]*` ends only at a non-class character and
digits are not class characters, so it is deterministic; `,?` and `\s*`
likewise cannot trade characters with `\d{4}`. -/
def monthDateAt (prev : Option Char) (cs : List Char) : Option String :=
  if isWordOpt prev then none
  else
    firstSome (monthRests cs) fun r1 =>
    let r2 := skipRun (fun c => pySpace c || c = '-' || c = '.') r1
    firstSome (runRests Char.isDigit 1 2 r2) fun r3 =>
    let r4 := match r3 with | ',' :: t => t | _ => r3
    let r5 := skipRun pySpace r4
    firstSome (runRests Char.isDigit 4 4 r5) fun r6 =>
      if noWordAhead r6 then some (consumed cs r6).asString else none

/-- src/extractor.py:86-99. -/
def extract_date_like (text : String) : Option String :=
  if text = "" then none
  else
    let cs := text.toList
    match searchPrev (numDateAt (fun c => c = '/' || c = '-')) cs with
    | some d => some d
    | none =>
      match searchPrev (numDateAt (fun c => c = '.')) cs with
      | some d => some d
      | none => searchPrev monthDateAt cs

/-! ### Member-ID extractor (`extract_member_id`) -/

/-- Candidate rests of `(?:member(?:\s*id)?|memb|memberid|Member\s*ID)`
(case-insensitive) in Python's backtracking order.  Inside
`(?:\s*id)?` the whitespace run is deterministic (whitespace cannot start
`id`), and the optional group offers the consuming candidate first. -/
def memberIdLabelRests (cs : List Char) : List (List Char) :=
  let alt1 : List (List Char) :=
    match litCI "member" cs with
    | none => []
    | some r =>
      match litCI "id" (skipRun pySpace r) with
      | some r2 => [r2, r]
      | none => [r]
  let alt2 := (litCI "memb" cs).toList
  let alt3 := (litCI "memberid" cs).toList
  let alt4 : List (List Char) :=
    match litCI "member" cs with
    | none => []
    | some r => (litCI "id" (skipRun pySpace r)).toList
  alt1 ++ alt2 ++ alt3 ++ alt4

/-- `(?:member(?:\s*id)?|memb|memberid|Member\s*ID)[:\s#\-]*([0-9]{4,12})`
(case-insensitive).  The class `[:\s#\-]` is disjoint from digits, so its
greedy run is deterministic; the final `{4,12}` ends the pattern, so it
simply takes up to 12 digits and needs at least 4. -/
def memberIdLabeledAt (cs : List Char) : Option String :=
  firstSome (memberIdLabelRests cs) fun r =>
    let r2 := skipRun (fun c => c = ':' || pySpace c || c = '#' || c = '-') r
    let ds := (r2.takeWhile Char.isDigit).take 12
    if 4 ≤ ds.length then some ds.asString else none

/-- `\bmember[\s\-:]*([0-9]{6,12})\b` (case-insensitive). -/
def memberIdBareAt (prev : Option Char) (cs : List Char) : Option String :=
  if isWordOpt prev then none
  else
    match litCI "member" cs with
    | none => none
    | some r =>
      let r2 := skipRun (fun c => pySpace c || c = '-' || c = ':') r
      firstSome (runRests Char.isDigit 6 12 r2) fun r3 =>
        if noWordAhead r3 then some (consumed r2 r3).asString else none

/-- src/extractor.py:101-110. -/
def extract_member_id (text : String) : Option String :=
  if text = "" then none
  else
    let cs := text.toList
    match searchPrev (fun _ rest => memberIdLabeledAt rest) cs with
    | some v => some v
    | none => searchPrev memberIdBareAt cs

/-! ### Splitters -/

/-- Python `str.split()` (split on whitespace runs, no empty pieces).
`acc` is the current token, reversed. -/
def splitWsAux : List Char → List Char → List String
  | acc, [] => if acc.isEmpty then [] else [acc.reverse.asString]
  | acc, c :: cs =>
    if pySpace c then
      if acc.isEmpty then splitWsAux [] cs
      else acc.reverse.asString :: splitWsAux [] cs
    else splitWsAux (c :: acc) cs

def pySplitWs (cs : List Char) : List String := splitWsAux [] cs

/-- `re.split` against a separator recognizer `sep` that consumes at least
one character when it fires; empty pieces are kept, as in Python.  `fuel`
is at least the input length. -/
def splitBySepF (sep : List Char → Option (List Char)) : Nat → List Char → List (List Char)
  | _, [] => [[]]
  | 0, cs => [cs]
  | n + 1, c :: cs =>
    match sep (c :: cs) with
    | some rest => [] :: splitBySepF sep n rest
    | none =>
      match splitBySepF sep n cs with
      | [] => [[c]]
      | p :: ps => (c :: p) :: ps

/-- Separator of `re.split(r"[\r\n]+", text)`: a maximal run of CR/LF. -/
def nlRunSep (cs : List Char) : Option (List Char) :=
  match cs with
  | c :: r =>
    if c = '\r' || c = '\n' then some (skipRun (fun d => d = '\r' || d = '\n') r)
    else none
  | [] => none

/-! ### Name extractor (`extract_names`) -/

/-- The token class `[A-Za-z\'\.\-]` of the name patterns. -/
def nameTokChar (c : Char) : Bool := c.isAlpha || c = '\'' || c = '.' || c = '-'

/-- `[A-Z][A-Za-z\'\.\-]+` (case-sensitive): one capital, then a greedy
run of at least one token character.  The run is deterministic: it is
always followed by whitespace or the pattern end, and the class has no
whitespace. -/
def nameTokenRest (cs : List Char) : Option (List Char) :=
  match cs with
  | c :: r =>
    if c.isUpper then
      let run := r.takeWhile nameTokChar
      if run.length ≥ 1 then some (r.drop run.length) else none
    else none
  | [] => none

/-- Greedy `(?:\s+[A-Z][A-Za-z\'\.\-]+){0,3}`: nothing follows the group,
so each iteration commits to its own match. -/
def nameMore : Nat → List Char → List Char
  | 0, r => r
  | n + 1, r =>
    let ws := (r.takeWhile pySpace).length
    if ws ≥ 1 then
      match nameTokenRest (r.drop ws) with
      | some r2 => nameMore n r2
      | none => r
    else r

/-- `(?:Name|name)[:\s\-]*([A-Z][A-Za-z\'\.\-]+(?:\s+[A-Z][A-Za-z\'\.\-]+){0,3})`
(case-sensitive).  The class `[:\s\-]` never contains a capital letter,
so its greedy run is deterministic. -/
def nameLabeledAt (cs : List Char) : Option String :=
  firstSome [litCS "Name" cs, litCS "name" cs] fun alt =>
    match alt with
    | none => none
    | some r =>
      let r2 := skipRun (fun c => c = ':' || pySpace c || c = '-') r
      match nameTokenRest r2 with
      | none => none
      | some r3 => some (consumed r2 (nameMore 3 r3)).asString

/-- `re.match(r"^[A-Z][A-Za-z\'\.\-]+$", t)` for a whitespace-free token:
a capital followed by at least one token character to the end. -/
def isCapToken (t : String) : Bool :=
  match t.toList with
  | c :: rest => c.isUpper && !rest.isEmpty && rest.all nameTokChar
  | [] => false

/-- `\b([A-Z][a-zA-Z'\-]+),\s*([A-Z][A-Za-z'\-]+(?:\s+[A-Z])?)`
(case-sensitive), returning (group2, group1).  Both `+` runs are
deterministic (their classes exclude the comma resp. whitespace that
follows), and so are `\s*` and the trailing optional ` [A-Z]`. -/
def lastFirstTokChar (c : Char) : Bool := c.isAlpha || c = '\'' || c = '-'

def lastFirstAt (prev : Option Char) (cs : List Char) : Option (String × String) :=
  if isWordOpt prev then none
  else
    match cs with
    | c :: r =>
      if c.isUpper then
        let run := r.takeWhile lastFirstTokChar
        if run.length ≥ 1 then
          match r.drop run.length with
          | ',' :: r2 =>
            let r3 := skipRun pySpace r2
            match r3 with
            | d :: r4 =>
              if d.isUpper then
                let run2 := r4.takeWhile lastFirstTokChar
                if run2.length ≥ 1 then
                  let r5 := r4.drop run2.length
                  let ws2 := (r5.takeWhile pySpace).length
                  let r6 :=
                    if ws2 ≥ 1 then
                      match r5.drop ws2 with
                      | e :: r7 => if e.isUpper then r7 else r5
                      | [] => r5
                    else r5
                  some ((consumed r3 r6).asString, (c :: run).asString)
                else none
              else none
            | [] => none
          | _ => none
        else none
      else none
    | [] => none

/-- src/extractor.py:112-129. -/
def extract_names (text : String) : Option String × Option String :=
  if text = "" then (none, none)
  else
    let cs := text.toList
    match searchPrev (fun _ rest => nameLabeledAt rest) cs with
    | some g =>
      let parts := pySplitWs (pyStripL g.toList)
      match parts with
      | [] => (none, none)
      | [p] => (some p, none)
      | p :: rest => (some p, some (String.intercalate " " rest))
    | none =>
      let lines := ((splitBySepF nlRunSep cs.length cs).map pyStripL).filter (fun l => !l.isEmpty)
      match firstSome lines (fun ln =>
        let tokens := pySplitWs ln
        if 2 ≤ tokens.length && tokens.length ≤ 4 && tokens.all isCapToken then
          match tokens with
          | t :: rest => some (t, String.intercalate " " rest)
          | [] => none
        else none) with
      | some (f, l) => (some f, some l)
      | none =>
        match searchPrev lastFirstAt cs with
        | some (f, l) => (some f, some l)
        | none => (none, none)

/-! ### Address extractor (`extract_address_city_state_zip`) -/

/-- `[A-Za-z\s\.']`, the city class of the address patterns. -/
def cityChar (c : Char) : Bool := c.isAlpha || pySpace c || c = '.' || c = '\''

/-- Common tail of the two street patterns, from the position after the
street capture: `\s+([A-Za-z][A-Za-z\s\.']{1,40})` then (with `comma` and
`dot` enabled for the first pattern) `[,]?\s+([A-Za-z]{2})\.?\s*(\d{5})`.
The whitespace runs are deterministic (always followed by a letter or
digit), and so are `[,]?` and `\.?` (the character they consume can be
consumed by nothing else).  The city run `{1,40}` genuinely backtracks. -/
def addrTailAt (comma dot : Bool) (a3 : List Char) : Option (String × String × String) :=
  let ws2 := (a3.takeWhile pySpace).length
  if ws2 ≥ 1 then
    let a4 := a3.drop ws2
    match a4 with
    | c :: a5 =>
      if c.isAlpha then
        firstSome (runRests cityChar 1 40 a5) fun a6 =>
          let a7 :=
            if comma then (match a6 with | ',' :: t => t | _ => a6) else a6
          let ws3 := (a7.takeWhile pySpace).length
          if ws3 ≥ 1 then
            let a8 := a7.drop ws3
            match a8 with
            | s1 :: s2 :: a9 =>
              if s1.isAlpha && s2.isAlpha then
                let a10 :=
                  if dot then (match a9 with | '.' :: t => t | _ => a9) else a9
                let a11 := skipRun pySpace a10
                let zs := a11.takeWhile Char.isDigit
                if zs.length ≥ 5 then
                  some ((consumed a4 a6).asString, ([s1, s2]).asString,
                        (zs.take 5).asString)
                else none
              else none
            | _ => none
          else none
      else none
    | [] => none
  else none

/-- `(\d{1,6}\s+[^\n,]+?)` then the tail above.  The digit run is
deterministic (it must be followed by whitespace, and a shorter run ends
at a digit); the `\s+` and the lazy run `[^\n,]+?` backtrack. -/
def streetAt (comma dot : Bool) (cs : List Char) : Option (String × String × String × String) :=
  let ds := cs.takeWhile Char.isDigit
  if 1 ≤ ds.length && ds.length ≤ 6 then
    let a1 := cs.drop ds.length
    firstSome (runRests pySpace 1 a1.length a1) fun a2 =>
    firstSome (lazyRests (fun c => c ≠ '\n' && c ≠ ',') 1 a2) fun a3 =>
      match addrTailAt comma dot a3 with
      | some (city, st, zp) => some ((consumed cs a3).asString, city, st, zp)
      | none => none
  else none

/-- `([A-Za-z][A-Za-z\s\.']{1,40})\s+([A-Za-z]{2})\s+(\d{5})`
(case-insensitive, src/extractor.py:146). -/
def cityStateZipAt (cs : List Char) : Option (String × String × String) :=
  match cs with
  | c :: a1 =>
    if c.isAlpha then
      firstSome (runRests cityChar 1 40 a1) fun a2 =>
        let ws := (a2.takeWhile pySpace).length
        if ws ≥ 1 then
          let a3 := a2.drop ws
          match a3 with
          | s1 :: s2 :: a4 =>
            if s1.isAlpha && s2.isAlpha then
              let ws2 := (a4.takeWhile pySpace).length
              if ws2 ≥ 1 then
                let a5 := a4.drop ws2
                let zs := a5.takeWhile Char.isDigit
                if zs.length ≥ 5 then
                  some ((consumed cs a2).asString, ([s1, s2]).asString, (zs.take 5).asString)
                else none
              else none
            else none
          | _ => none
        else none
    else none
  | [] => none

/-- The address-unchanged phrase pattern of src/extractor.py:144:
`\b(address\s+stays\s+same|address\s+same on file|address\s+same|same on file|address\s+unchanged)\b`
(case-insensitive; the spaces inside `same on file` are literal single
spaces).  With `extra := true` this is the assembler's variant
(src/extractor.py:320), which appends the dead alternative
`Address same on file`. -/
def unchangedAt (extra : Bool) (prev : Option Char) (cs : List Char) : Option Unit :=
  if isWordOpt prev then none
  else
    let afterAddress : Option (List Char) :=
      match litCI "address" cs with
      | none => none
      | some r =>
        let ws := (r.takeWhile pySpace).length
        if ws ≥ 1 then some (r.drop ws) else none
    let alts : List (Option (List Char)) :=
      [afterAddress.bind (fun r =>
         (litCI "stays" r).bind fun r2 =>
           let ws := (r2.takeWhile pySpace).length
           if ws ≥ 1 then litCI "same" (r2.drop ws) else none),
       afterAddress.bind (litCI "same on file"),
       afterAddress.bind (litCI "same"),
       litCI "same on file" cs,
       afterAddress.bind (litCI "unchanged")] ++
      (if extra then [litCI "Address same on file" cs] else [])
    firstSome alts fun alt =>
      match alt with
      | some rest => if noWordAhead rest then some () else none
      | none => none

def unchangedSearch (extra : Bool) (text : String) : Bool :=
  (searchPrev (unchangedAt extra) text.toList).isSome

/-- src/extractor.py:131-149. -/
def extract_address_city_state_zip (text : String) :
    Option String × Option String × Option String × Option String :=
  if text = "" then (none, none, none, none)
  else
    let cs := text.toList
    match searchPrev (fun _ rest => streetAt true true rest) cs with
    | some (a, c, s, z) =>
      (some (pyStrip a), some (pyStrip c), some (pyStrip (pyUpper s)), some (pyStrip z))
    | none =>
      match searchPrev (fun _ rest => streetAt false false rest) cs with
      | some (a, c, s, z) =>
        (some (pyStrip a), some (pyStrip c), some (pyStrip (pyUpper s)), some (pyStrip z))
      | none =>
        if unchangedSearch false text then (none, none, none, none)
        else
          match searchPrev (fun _ rest => cityStateZipAt rest) cs with
          | some (c, s, z) =>
            (none, some (pyStrip c), some (pyStrip (pyUpper s)), some (pyStrip z))
          | none => (none, none, none, none)

/-! ### Member-status extractor (`extract_member_status`) -/

/-- Candidate rests of the optional label
`(status|status\s*should\s*be|status:)?` (case-insensitive), in Python's
order: the three alternatives first, then the empty option.  The inner
`\s*` runs are deterministic (whitespace never starts `should` or `be`). -/
def statusLabelRests (cs : List Char) : List (List Char) :=
  let a1 := (litCI "status" cs).toList
  let a2 :=
    (match litCI "status" cs with
     | none => none
     | some r =>
       match litCI "should" (skipRun pySpace r) with
       | none => none
       | some r2 => litCI "be" (skipRun pySpace r2)).toList
  let a3 := (litCI "status:" cs).toList
  a1 ++ a2 ++ a3 ++ [cs]

/-- The keyword alternation of src/extractor.py:154, in written order.
`term(?:ed|)\b` contributes the candidates `termed` and `term`, each
requiring a word boundary after it; the remaining alternatives have no
boundary. -/
def statusKeywordRest (cs : List Char) : Option (List Char) :=
  firstSome
    [litCI "active" cs,
     litCI "inactive" cs,
     (litCI "termed" cs).bind (fun r => if noWordAhead r then some r else none),
     (litCI "term" cs).bind (fun r => if noWordAhead r then some r else none),
     litCI "terminated" cs,
     litCI "termed" cs,
     litCI "term" cs,
     litCI "should be inactive" cs,
     litCI "should be active" cs,
     litCI "active from" cs,
     litCI "active starting" cs,
     litCI "active frm" cs]
    id

/-- The status scan of src/extractor.py:154; returns `group(0)`.  After
the keyword, `[\w\s]*` ends the pattern, so it greedily takes every word
or whitespace character; nothing after the keyword can fail, so the
alternation commits to its first match. -/
def statusScan (cs : List Char) : Option String :=
  searchPrev (fun _ rest =>
    firstSome (statusLabelRests rest) fun r =>
      let r2 := skipRun pySpace r
      match statusKeywordRest r2 with
      | none => none
      | some r3 => some (consumed rest (skipRun (fun c => isWordChar c || pySpace c) r3)).asString) cs

/-- `\b(term(?:ed|)|termed|terminated|term eff|termed effective|terminate)\b`
(case-insensitive), as a boolean search. -/
def termSnipSearch (cs : List Char) : Bool :=
  (searchPrev (fun prev rest =>
    if isWordOpt prev then none
    else
      firstSome
        [litCI "termed" rest, litCI "term" rest, litCI "termed" rest,
         litCI "terminated" rest, litCI "term eff" rest,
         litCI "termed effective" rest, litCI "terminate" rest] fun alt =>
        match alt with
        | some r => if noWordAhead r then some () else none
        | none => none) cs).isSome

/-- `\bterm(?:ed)?\b` (case-insensitive). -/
def termTextSearch (cs : List Char) : Bool :=
  (searchPrev (fun prev rest =>
    if isWordOpt prev then none
    else
      firstSome [litCI "termed" rest, litCI "term" rest] fun alt =>
        match alt with
        | some r => if noWordAhead r then some () else none
        | none => none) cs).isSome

/-- `\bWORD\b` (case-insensitive) as a boolean search. -/
def wordSearchCI (w : String) (cs : List Char) : Bool :=
  (searchPrev (fun prev rest =>
    if isWordOpt prev then none
    else
      match litCI w rest with
      | some r => if noWordAhead r then some () else none
      | none => none) cs).isSome

/-- `(should be (active|inactive))` (case-insensitive): returns
`group(2).upper()`. -/
def shouldBeSearch (cs : List Char) : Option String :=
  searchPrev (fun _ rest =>
    match litCI "should be " rest with
    | none => none
    | some r =>
      firstSome ["active", "inactive"] fun w =>
        match litCI w r with
        | some _ => some (pyUpper w)
        | none => none) cs

/-- src/extractor.py:151-166. -/
def extract_member_status (text : String) : Option String :=
  if text = "" then none
  else
    let cs := text.toList
    match statusScan cs with
    | some snippet =>
      if termSnipSearch snippet.toList || termTextSearch cs then some "TERMINATED"
      else if wordSearchCI "inactive" snippet.toList then some "INACTIVE"
      else if wordSearchCI "active" snippet.toList then some "ACTIVE"
      else shouldBeSearch cs
    | none => shouldBeSearch cs

/-! ### Plan extractor (`extract_plan`) -/

/-- Candidate rests of `(plan(?:\s*type)?|health plan|pln|new plan|Plan)`
(case-insensitive), in Python's order; inside `(?:\s*type)?` the
whitespace run is deterministic and the consuming candidate comes
first. -/
def planLabelRests (cs : List Char) : List (List Char) :=
  let alt1 : List (List Char) :=
    match litCI "plan" cs with
    | none => []
    | some r =>
      match litCI "type" (skipRun pySpace r) with
      | some r2 => [r2, r]
      | none => [r]
  alt1 ++ (litCI "health plan" cs).toList ++ (litCI "pln" cs).toList ++
    (litCI "new plan" cs).toList ++ (litCI "plan" cs).toList

/-- `\s*[:=\-]*\s*([A-Za-z0-9\-\s]+)` after the plan label.  All three
runs backtrack: the capture class contains whitespace and the dash, so
characters the runs release can start the capture (e.g. whitespace
released by the trailing `\s*` becomes a whitespace-only capture).  The
capture ends the pattern, so it is the maximal run (at least one
character). -/
def planValueAt (r : List Char) : Option String :=
  firstSome (runRests pySpace 0 r.length r) fun r1 =>
  firstSome (runRests (fun c => c = ':' || c = '=' || c = '-') 0 r1.length r1) fun r2 =>
  firstSome (runRests pySpace 0 r2.length r2) fun r3 =>
    let run := r3.takeWhile (fun c => c.isAlpha || c.isDigit || c = '-' || pySpace c)
    if run.length ≥ 1 then some run.asString else none

/-- The delimiters of `re.split(r"[,;]|status|contract|begin|cover|coverage|codes|code", raw, re.I)`:
the captured fragment is cut at the earliest position where one of them
matches. -/
def planCutAt (cs : List Char) : Bool :=
  (firstSome
    [(match cs with | ',' :: _ => some () | _ => none),
     (match cs with | ';' :: _ => some () | _ => none),
     (litCI "status" cs).map (fun _ => ()),
     (litCI "contract" cs).map (fun _ => ()),
     (litCI "begin" cs).map (fun _ => ()),
     (litCI "cover" cs).map (fun _ => ()),
     (litCI "coverage" cs).map (fun _ => ()),
     (litCI "codes" cs).map (fun _ => ()),
     (litCI "code" cs).map (fun _ => ())] id).isSome

def planCutPrefix : List Char → List Char
  | [] => []
  | c :: cs => if planCutAt (c :: cs) then [] else c :: planCutPrefix cs

/-- `\bMedicare\s*Adv\b` (case-insensitive). -/
def medicareAdvSearch (cs : List Char) : Bool :=
  (searchPrev (fun prev rest =>
    if isWordOpt prev then none
    else
      match litCI "medicare" rest with
      | none => none
      | some r =>
        match litCI "adv" (skipRun pySpace r) with
        | some r2 => if noWordAhead r2 then some () else none
        | none => none) cs).isSome

/-- `\bCommercial\b|\bcomm\b` (case-insensitive). -/
def commercialSearch (cs : List Char) : Bool :=
  (searchPrev (fun prev rest =>
    if isWordOpt prev then none
    else
      firstSome [litCI "commercial" rest, litCI "comm" rest] fun alt =>
        match alt with
        | some r => if noWordAhead r then some () else none
        | none => none) cs).isSome

/-- src/extractor.py:168-186. -/
def extract_plan (text : String) : Option String :=
  if text = "" then none
  else
    let cs := text.toList
    match searchPrev (fun _ rest => firstSome (planLabelRests rest) planValueAt) cs with
    | some g =>
      let raw := pyStripL g.toList
      let cut := pyStripL (planCutPrefix raw)
      normalize_plan (some cut.asString)
    | none =>
      if wordSearchCI "hmo" cs then some "HMO"
      else if wordSearchCI "ppo" cs then some "PPO"
      else if wordSearchCI "epo" cs then some "EPO"
      else if medicareAdvSearch cs || wordSearchCI "medicare" cs then some "Medicare Adv"
      else if commercialSearch cs then some "Commercial"
      else none

/-! ### Contract extractor (`extract_contract`) -/

/-- Candidate rests of `(?:Contract|Contract\s*type|contract|contract:)`
(case-insensitive), in written order. -/
def contractLabelRests (cs : List Char) : List (List Char) :=
  (litCI "contract" cs).toList ++
  (match litCI "contract" cs with
   | none => []
   | some r => (litCI "type" (skipRun pySpace r)).toList) ++
  (litCI "contract" cs).toList ++
  (litCI "contract:" cs).toList

/-- `\s*[:=\-]*\s*([0-9A-Za-z\-]{1,10})` after the contract label; same
backtracking discipline as `planValueAt`, with the capture bounded by 10
characters. -/
def contractValueAt (r : List Char) : Option String :=
  let r1 := skipRun pySpace r
  firstSome (runRests (fun c => c = ':' || c = '=' || c = '-') 0 r1.length r1) fun r2 =>
    let r3 := skipRun pySpace r2
    let run := (r3.takeWhile (fun c => c.isAlpha || c.isDigit || c = '-')).take 10
    if run.length ≥ 1 then some run.asString else none

/-- `\bcontract\s+(\d)\b` (case-insensitive). -/
def contractDigitAt (prev : Option Char) (cs : List Char) : Option String :=
  if isWordOpt prev then none
  else
    match litCI "contract" cs with
    | none => none
    | some r =>
      let ws := (r.takeWhile pySpace).length
      if ws ≥ 1 then
        match r.drop ws with
        | d :: r2 => if d.isDigit && noWordAhead r2 then some ([d]).asString else none
        | [] => none
      else none

/-- src/extractor.py:188-197. -/
def extract_contract (text : String) : Option String :=
  if text = "" then none
  else
    let cs := text.toList
    match searchPrev (fun _ rest => firstSome (contractLabelRests rest) contractValueAt) cs with
    | some v => some (pyStrip v)
    | none => searchPrev contractDigitAt cs

/-! ### Codes extractor (`extract_codes`) -/

/-- Candidate rests of `(?:codes?|cd|code|health code)` (case-insensitive):
`codes?` greedily offers `codes` before `code`. -/
def codesLabelRests (cs : List Char) : List (List Char) :=
  (litCI "codes" cs).toList ++ (litCI "code" cs).toList ++ (litCI "cd" cs).toList ++
  (litCI "code" cs).toList ++ (litCI "health code" cs).toList

/-- One iteration of `(?:\s*[,/;\s]\s*[0-9]{3,6})`.  The first `\s*`
backtracks (the bridging class also accepts whitespace); the second `\s*`
and the digit run are deterministic. -/
def codesBody (cs : List Char) : Option (List Char) :=
  firstSome (runRests pySpace 0 cs.length cs) fun r1 =>
    match r1 with
    | c :: r2 =>
      if c = ',' || c = '/' || c = ';' || pySpace c then
        let r3 := skipRun pySpace r2
        let ds := r3.takeWhile Char.isDigit
        if ds.length ≥ 3 then some (r3.drop (min ds.length 6)) else none
      else none
    | [] => none

/-- The greedy star over `codesBody`: nothing follows it in the pattern,
so it simply iterates while the body matches (each iteration consumes at
least one character, so the input length bounds the iterations). -/
def codesMore : Nat → List Char → List Char
  | 0, cs => cs
  | n + 1, cs =>
    match codesBody cs with
    | some cs2 => codesMore n cs2
    | none => cs

/-- The capture of src/extractor.py:202:
`([0-9]{3,6}(?:\s*[,/;\s]\s*[0-9]{3,6})*)`.  The leading digit run is
deterministic: the star body cannot start with a digit. -/
def codesScan (cs : List Char) : Option String :=
  searchPrev (fun _ rest =>
    firstSome (codesLabelRests rest) fun r =>
      let r2 := skipRun (fun c => c = ':' || pySpace c) r
      let ds := r2.takeWhile Char.isDigit
      if ds.length ≥ 3 then
        let r3 := r2.drop (min ds.length 6)
        some (consumed r2 (codesMore r3.length r3)).asString
      else none) cs

/-- Separator of `re.split(r"[,/;]\s*|\s{2,}|\s+", raw)`: a comma, slash
or semicolon followed by its greedy whitespace, or a maximal whitespace
run (`\s{2,}` and `\s+` together take the whole run). -/
def codesSepAt (cs : List Char) : Option (List Char) :=
  match cs with
  | c :: r =>
    if c = ',' || c = '/' || c = ';' then some (skipRun pySpace r)
    else if pySpace c then some (skipRun pySpace r)
    else none
  | [] => none

/-- `re.match(r"^\d{3,6}$", s)`: three to six digits followed by the end
of the string or by a single final newline (Python's `$`). -/
def matchDigits36 (l : List Char) : Bool :=
  [3, 4, 5, 6].any fun k =>
    decide (k ≤ l.length) && (l.take k).all Char.isDigit &&
      ((l.drop k).isEmpty || l.drop k == ['\n'])

/-- The duplicate-removal loop of src/extractor.py:208-213: keep the
first occurrence of each code, in order. -/
def dedupFirst (seen : List String) : List String → List String
  | [] => []
  | c :: cs =>
    if c ∈ seen then dedupFirst seen cs
    else c :: dedupFirst (c :: seen) cs

/-- The token list of src/extractor.py:205-206: the captured run,
stripped, split on the separator pattern, each piece stripped and kept
when it matches the 3–6-digit filter. -/
def codesTokens (raw : String) : List String :=
  let rawS := pyStripL raw.toList
  (splitBySepF codesSepAt rawS.length rawS).filterMap fun p =>
    let q := pyStripL p
    if matchDigits36 q then some q.asString else none

/-- src/extractor.py:199-215. -/
def extract_codes (text : String) : Option String :=
  if text = "" then none
  else
    match codesScan text.toList with
    | none => none
    | some raw =>
      let toks := codesTokens raw
      if toks.isEmpty then none
      else some (String.intercalate ", " (dedupFirst [] toks))

/-! ### Change-request extractor (`extract_change_request`) -/

/-- Stage 1 of src/extractor.py:220-232: `(?:PHRASE[:\-\s]*)(.+)$` with
`re.I | re.S`.  With DOTALL, `.+$` matches the whole remainder as long as
at least one character is left; the class run `[:\-\s]*` releases exactly
one character when it would otherwise consume everything. -/
def crStage1 (phrase : String) (cs : List Char) : Option String :=
  searchPrev (fun _ rest =>
    match litCI phrase rest with
    | none => none
    | some r =>
      if r.isEmpty then none
      else
        let k := (r.takeWhile (fun c => c = ':' || c = '-' || pySpace c)).length
        let g := if k = r.length then r.drop (k - 1) else r.drop k
        some g.asString) cs

def CR_PHRASES : List String :=
  ["change request", "please update", "please revise", "request to update",
   "need to change", "please process", "request"]

/-- Stage 2 (src/extractor.py:233-235):
`^(Please update.+|Request to update.+|Need eligibility.+|Please revise.+)`
with `re.I | re.M`: anchored at the start of a line, `.+` (no DOTALL)
takes the rest of the line and needs at least one character. -/
def crStage2At (prev : Option Char) (rest : List Char) : Option String :=
  if prev = none || prev = some '\n' then
    firstSome ["Please update", "Request to update", "Need eligibility", "Please revise"]
      fun lit =>
        match litCI lit rest with
        | none => none
        | some r =>
          let line := r.takeWhile (fun c => c ≠ '\n')
          if line.length ≥ 1 then some (consumed rest r ++ line).asString else none
  else none

/-- Stage 3 (src/extractor.py:236): the alternation
`\bplease update|request to update|need eligibility|update elig|terminate member|terminate|terminate|please revise|eligibility chg`
(case-insensitive) — only the first alternative carries the `\b`. -/
def crStage3 (cs : List Char) : Bool :=
  (searchPrev (fun prev rest =>
    firstSome
      [(if isWordOpt prev then none else (litCI "please update" rest).map (fun _ => ())),
       (litCI "request to update" rest).map (fun _ => ()),
       (litCI "need eligibility" rest).map (fun _ => ()),
       (litCI "update elig" rest).map (fun _ => ()),
       (litCI "terminate member" rest).map (fun _ => ()),
       (litCI "terminate" rest).map (fun _ => ()),
       (litCI "terminate" rest).map (fun _ => ()),
       (litCI "please revise" rest).map (fun _ => ()),
       (litCI "eligibility chg" rest).map (fun _ => ())] id) cs).isSome

/-- src/extractor.py:217-238. -/
def extract_change_request (text : String) : Option String :=
  if text = "" then none
  else
    let cs := text.toList
    match firstSome CR_PHRASES (fun p => crStage1 p cs) with
    | some g => some (pyTake 200 (pyStrip g))
    | none =>
      match searchPrev crStage2At cs with
      | some g => some (pyTake 200 (pyStrip g))
      | none =>
        if crStage3 cs then some (pyTake 200 (pyStrip text))
        else none

/-! ### Labeled date fields (dob, start_date, end_date) -/

/-- Python's falsy `or`: `extract_date_like(g) or g.strip()`. -/
def orStrip (d : Option String) (g : String) : String :=
  match d with
  | some s => if s = "" then pyStrip g else s
  | none => pyStrip g

/-- `\s*[:\-\s]*([^\n,;]+)` after a label (src/extractor.py:341 and 354).
Both runs backtrack: the capture class also contains whitespace, colons
and dashes, so characters they release can start the capture.  The
capture itself ends the pattern so it is the maximal run (at least one
character). -/
def freeValueAt (r : List Char) : Option String :=
  firstSome (runRests pySpace 0 r.length r) fun r1 =>
  firstSome (runRests (fun c => c = ':' || c = '-' || pySpace c) 0 r1.length r1) fun r2 =>
    let run := r2.takeWhile (fun c => c ≠ '\n' && c ≠ ',' && c ≠ ';')
    if run.length ≥ 1 then some run.asString else none

/-- Candidate rests of `(?:DOB|Date of Birth|dob|DOB:)` (case-insensitive),
in written order. -/
def dobLabelRests (cs : List Char) : List (List Char) :=
  (litCI "dob" cs).toList ++ (litCI "date of birth" cs).toList ++
  (litCI "dob" cs).toList ++ (litCI "dob:" cs).toList

/-- `\s*[:\-]*\s*([^\n,;]+(?:[,\s]\s*\d{4})?)` (src/extractor.py:310).
The three leading runs backtrack (the capture class contains whitespace,
colons and dashes).  The capture's `+` run is greedy and final: the
optional group either matches right after it — at a comma or a newline,
the only `[,\s]` characters the run cannot have consumed — or is
dropped, with no backtracking into the run. -/
def dobValueAt (r : List Char) : Option String :=
  firstSome (runRests pySpace 0 r.length r) fun r1 =>
  firstSome (runRests (fun c => c = ':' || c = '-') 0 r1.length r1) fun r2 =>
  firstSome (runRests pySpace 0 r2.length r2) fun r3 =>
    let run := r3.takeWhile (fun c => c ≠ '\n' && c ≠ ',' && c ≠ ';')
    if run.length ≥ 1 then
      let r4 := r3.drop run.length
      let r5 :=
        match r4 with
        | c :: t =>
          if c = ',' || pySpace c then
            let t2 := skipRun pySpace t
            if ((t2.takeWhile Char.isDigit).length) ≥ 4 then t2.drop 4 else r4
          else r4
        | [] => r4
      some (consumed r3 r5).asString
    else none

/-- The dob assignment of src/extractor.py:310-318. -/
def dobField (text : String) : Option String :=
  let cs := text.toList
  match searchPrev (fun _ rest => firstSome (dobLabelRests rest) dobValueAt) cs with
  | some maybe => some (orStrip (extract_date_like maybe) maybe)
  | none =>
    match extract_date_like text with
    | some d => if d = "" then none else some d
    | none => none

/-- `[0-9]{1,2}[\/\.\-][0-9]{1,2}[\/\.\-][0-9]{2,4}` (the numeric date
alternative shared by the start- and end-date patterns; nothing follows
it, so the final run greedily takes up to four digits). -/
def numDateGroupAt (cs : List Char) : Option (List Char) :=
  firstSome (runRests Char.isDigit 1 2 cs) fun r1 =>
    match r1 with
    | c :: r2 =>
      if c = '/' || c = '.' || c = '-' then
        firstSome (runRests Char.isDigit 1 2 r2) fun r3 =>
          match r3 with
          | c2 :: r4 =>
            if c2 = '/' || c2 = '.' || c2 = '-' then
              firstSome (runRests Char.isDigit 2 4 r4) fun r5 => some r5
            else none
          | [] => none
      else none
    | [] => none

/-- `\bMONTHS\s*\d{1,2},?\s*\d{4}` (the month alternative of the start-
and end-date patterns; no trailing boundary).  `prevWord` says whether
the character before this position is a word character (for the `\b`). -/
def monthGroupAt (prevWord : Bool) (cs : List Char) : Option (List Char) :=
  if prevWord then none
  else
    firstSome (monthRests cs) fun r1 =>
    let r2 := skipRun pySpace r1
    firstSome (runRests Char.isDigit 1 2 r2) fun r3 =>
    let r4 := match r3 with | ',' :: t => t | _ => r3
    let r5 := skipRun pySpace r4
    if ((r5.takeWhile Char.isDigit).length) ≥ 4 then some (r5.drop 4) else none

/-- Candidate rests of the start-date label alternation of
src/extractor.py:341, in written order (`cover\s*date` appears twice in
the source); `begin(?: date)?` offers the longer candidate first. -/
def startLabelRests (cs : List Char) : List (List Char) :=
  let cov (w : String) : Option (List Char) :=
    (litCI "coverage" cs).bind fun r => litCI w (skipRun pySpace r)
  let coverDate : Option (List Char) :=
    (litCI "cover" cs).bind fun r => litCI "date" (skipRun pySpace r)
  (cov "start").toList ++ (cov "begins").toList ++
  ((litCI "coverage" cs).bind (fun r =>
     (litCI "begin" (skipRun pySpace r)).bind fun r2 =>
       litCI "date" (skipRun pySpace r2))).toList ++
  (cov "begin").toList ++ (cov "from").toList ++
  coverDate.toList ++ coverDate.toList ++
  (match litCI "begin" cs with
   | none => []
   | some r =>
     match litCI " date" r with
     | some r2 => [r2, r]
     | none => [r]) ++
  (litCI "begin" cs).toList

/-- `\b(begin|begin date|beginning)\b[:\-\s]*([^\s,;]+)`
(src/extractor.py:346).  The class run backtracks (it can release colons
and dashes into the capture); the capture excludes whitespace and is
final, hence maximal. -/
def beginBareAt (prev : Option Char) (cs : List Char) : Option String :=
  if isWordOpt prev then none
  else
    firstSome [litCI "begin" cs, litCI "begin date" cs, litCI "beginning" cs] fun alt =>
      match alt with
      | none => none
      | some r =>
        if noWordAhead r then
          firstSome (runRests (fun c => c = ':' || c = '-' || pySpace c) 0 r.length r) fun r2 =>
            let run := r2.takeWhile (fun c => !pySpace c && c ≠ ',' && c ≠ ';')
            if run.length ≥ 1 then some run.asString else none
        else none

/-- `\b(?:active(?:\s*from|\s*starting|\s*frm)?|active\s+starting|active\s+from)\s*(NUM|\bMONTH)`
(src/extractor.py:350).  Every label candidate ends in a letter, so when
the `\s*` before the date consumes nothing the month alternative's `\b`
fails. -/
def activeDateAt (prev : Option Char) (cs : List Char) : Option String :=
  if isWordOpt prev then none
  else
    let labelCands : List (List Char) :=
      (match litCI "active" cs with
       | none => []
       | some r =>
         ([litCI "from" (skipRun pySpace r), litCI "starting" (skipRun pySpace r),
           litCI "frm" (skipRun pySpace r)].filterMap id) ++ [r]) ++
      ((litCI "active" cs).bind (fun r =>
         let w := (r.takeWhile pySpace).length
         if w ≥ 1 then litCI "starting" (r.drop w) else none)).toList ++
      ((litCI "active" cs).bind (fun r =>
         let w := (r.takeWhile pySpace).length
         if w ≥ 1 then litCI "from" (r.drop w) else none)).toList
    firstSome labelCands fun r =>
      let wsA := (r.takeWhile pySpace).length
      let r2 := r.drop wsA
      match numDateGroupAt r2 with
      | some r3 => some (consumed r2 r3).asString
      | none =>
        match monthGroupAt (wsA == 0) r2 with
        | some r3 => some (consumed r2 r3).asString
        | none => none

/-- The start_date assignment of src/extractor.py:341-352 (the third
pattern stores `m3.group(1)` directly, without `extract_date_like`). -/
def startDateField (text : String) : Option String :=
  let cs := text.toList
  match searchPrev (fun _ rest => firstSome (startLabelRests rest) freeValueAt) cs with
  | some g => some (orStrip (extract_date_like g) g)
  | none =>
    match searchPrev beginBareAt cs with
    | some g => some (orStrip (extract_date_like g) g)
    | none => searchPrev activeDateAt cs

/-- Candidate rests of `(?:Plan\s*End\s*Date|Plan\s*End|plan end date|plan end)`
(case-insensitive), in written order. -/
def endLabelRests (cs : List Char) : List (List Char) :=
  ((litCI "plan" cs).bind (fun r =>
     (litCI "end" (skipRun pySpace r)).bind fun r2 =>
       litCI "date" (skipRun pySpace r2))).toList ++
  ((litCI "plan" cs).bind (fun r => litCI "end" (skipRun pySpace r))).toList ++
  (litCI "plan end date" cs).toList ++ (litCI "plan end" cs).toList

/-- Candidate rests of
`(?:term(?:ed|)|terminated|termed|terminate|termed effective|term eff|term effective)`
(case-insensitive, src/extractor.py:358), in written order. -/
def termedLabelRests (cs : List Char) : List (List Char) :=
  (litCI "termed" cs).toList ++ (litCI "term" cs).toList ++
  (litCI "terminated" cs).toList ++ (litCI "termed" cs).toList ++
  (litCI "terminate" cs).toList ++ (litCI "termed effective" cs).toList ++
  (litCI "term eff" cs).toList ++ (litCI "term effective" cs).toList

/-- `LABEL\s*(?:effective|eff|:)?\s*(NUM|\bMONTH)` (src/extractor.py:358).
The optional-group candidates also record whether their last consumed
character is a word character, which decides the month alternative's
`\b` when the following `\s*` is empty. -/
def termedDateAt (cs : List Char) : Option String :=
  firstSome (termedLabelRests cs) fun r =>
    let wsA := (r.takeWhile pySpace).length
    let r1 := r.drop wsA
    let optCands : List (List Char × Bool) :=
      (match litCI "effective" r1 with | some r2 => [(r2, true)] | none => []) ++
      (match litCI "eff" r1 with | some r2 => [(r2, true)] | none => []) ++
      (match r1 with | ':' :: r2 => [(r2, false)] | _ => []) ++
      [(r1, wsA == 0)]
    firstSome optCands fun cand =>
      let wsB := (cand.1.takeWhile pySpace).length
      let r3 := cand.1.drop wsB
      match numDateGroupAt r3 with
      | some r4 => some (consumed r3 r4).asString
      | none =>
        match monthGroupAt (if wsB ≥ 1 then false else cand.2) r3 with
        | some r4 => some (consumed r3 r4).asString
        | none => none

/-- The end_date assignment of src/extractor.py:354-360. -/
def endDateField (text : String) : Option String :=
  let cs := text.toList
  match searchPrev (fun _ rest => firstSome (endLabelRests rest) freeValueAt) cs with
  | some g => some (orStrip (extract_date_like g) g)
  | none =>
    match searchPrev (fun _ rest => termedDateAt rest) cs with
    | some g => some (orStrip (extract_date_like g) g)
    | none => none

/-! ### JSON model

A model of the Python values produced by `json.loads`, and of the parser
itself on the JSON subset relevant here: objects, arrays, strings
(standard escapes; no lone surrogates), integers (no fractions or
exponents — inputs using floats are treated as parse failures by this
model), booleans and null.  Duplicate object keys update in place, as in
a Python dict. -/

inductive JVal where
  | null
  | bool (b : Bool)
  | int (n : Int)
  | str (s : String)
  | arr (xs : List JVal)
  | obj (kvs : List (String × JVal))

/-- Python dict insertion: a duplicate key keeps its position and takes
the new value. -/
def insertKV (kvs : List (String × JVal)) (k : String) (v : JVal) : List (String × JVal) :=
  match kvs with
  | [] => [(k, v)]
  | (k0, v0) :: rest => if k0 = k then (k0, v) :: rest else (k0, v0) :: insertKV rest k v

/-- JSON whitespace (RFC 8259). -/
def jsonWs (c : Char) : Bool := c = ' ' || c = '\t' || c = '\n' || c = '\r'

/-- Value of an ASCII hexadecimal digit, by code point (48–57 are the
digits, 97–102 lower-case a–f, 65–70 upper-case A–F). -/
def hexDigitVal (c : Char) : Option Nat :=
  let n := c.toNat
  if 48 ≤ n && n ≤ 57 then some (n - 48)
  else if 97 ≤ n && n ≤ 102 then some (n - 87)
  else if 65 ≤ n && n ≤ 70 then some (n - 55)
  else none

/-- The single-character escapes of a JSON string. -/
def jsonEscTable : List (Char × Char) :=
  [('"', '"'), ('\\', '\\'), ('/', '/'), ('b', '\x08'), ('f', '\x0c'),
   ('n', '\n'), ('r', '\r'), ('t', '\t')]

/-- JSON string body after the opening quote: returns the decoded content
and the rest after the closing quote.  Raw control characters are
rejected (Python's strict mode) and `\uXXXX` surrogate halves fail (they
have no `Char` counterpart). -/
def jsonStrBody : Nat → List Char → Option (List Char × List Char)
  | 0, _ => none
  | fuel + 1, input =>
    match input with
    | [] => none
    | '"' :: tl => some ([], tl)
    | '\\' :: tl =>
      match tl with
      | 'u' :: h1 :: h2 :: h3 :: h4 :: tl2 =>
        match hexDigitVal h1, hexDigitVal h2, hexDigitVal h3, hexDigitVal h4 with
        | some a, some b, some c, some d =>
          let code := a * 4096 + b * 256 + c * 16 + d
          if code < 0xd800 || 0xdfff < code then
            (jsonStrBody fuel tl2).map (fun q => (Char.ofNat code :: q.1, q.2))
          else none
        | _, _, _, _ => none
      | e :: tl2 =>
        match jsonEscTable.lookup e with
        | some decoded => (jsonStrBody fuel tl2).map (fun q => (decoded :: q.1, q.2))
        | none => none
      | [] => none
    | ch :: tl =>
      if 0x20 ≤ ch.toNat then (jsonStrBody fuel tl).map (fun q => (ch :: q.1, q.2))
      else none

def digitsToNat (ds : List Char) : Nat :=
  ds.foldl (fun acc c => 10 * acc + (c.toNat - 48)) 0

/-- The digits of a JSON natural: no leading zero; a following `.`, `e`
or `E` (a float) is a failure of this model. -/
def jsonNatPart (cs : List Char) : Option (Nat × List Char) :=
  match cs with
  | c :: tl =>
    if c.isDigit then
      let more := tl.takeWhile Char.isDigit
      if c = '0' && more.length != 0 then none
      else
        let rest := tl.dropWhile Char.isDigit
        let isFloat :=
          match rest with
          | d :: _ => d = '.' || d = 'e' || d = 'E'
          | [] => false
        if isFloat then none else some (digitsToNat (c :: more), rest)
    else none
  | [] => none

/-- A JSON integer: an optional minus sign before the digits. -/
def jsonInt (cs : List Char) : Option (Int × List Char) :=
  match cs with
  | '-' :: tl => (jsonNatPart tl).map (fun q => (-(q.1 : Int), q.2))
  | _ => (jsonNatPart cs).map (fun q => ((q.1 : Int), q.2))

mutual

def jsonValue : Nat → List Char → Option (JVal × List Char)
  | 0, _ => none
  | n + 1, cs =>
    let cs := cs.dropWhile jsonWs
    match cs with
    | '\x7b' :: r =>
      let r := r.dropWhile jsonWs
      match r with
      | '\x7d' :: r2 => some (.obj [], r2)
      | _ => (jsonObjItems n [] r).map (fun p => (.obj p.1, p.2))
    | '[' :: r =>
      let r := r.dropWhile jsonWs
      match r with
      | ']' :: r2 => some (.arr [], r2)
      | _ => (jsonArrItems n [] r).map (fun p => (.arr p.1, p.2))
    | '"' :: r => (jsonStrBody (n + 1) r).map (fun p => (.str p.1.asString, p.2))
    | 't' :: _ => (dropLitCS "true".toList cs).map (fun r => (.bool true, r))
    | 'f' :: _ => (dropLitCS "false".toList cs).map (fun r => (.bool false, r))
    | 'n' :: _ => (dropLitCS "null".toList cs).map (fun r => (.null, r))
    | _ => (jsonInt cs).map (fun p => (.int p.1, p.2))

def jsonObjItems : Nat → List (String × JVal) → List Char → Option (List (String × JVal) × List Char)
  | 0, _, _ => none
  | n + 1, acc, cs =>
    match cs with
    | '"' :: r =>
      match jsonStrBody (n + 1) r with
      | none => none
      | some (k, r2) =>
        match r2.dropWhile jsonWs with
        | ':' :: r4 =>
          match jsonValue n r4 with
          | none => none
          | some (v, r5) =>
            let acc2 := insertKV acc k.asString v
            match r5.dropWhile jsonWs with
            | ',' :: r7 => jsonObjItems n acc2 (r7.dropWhile jsonWs)
            | '\x7d' :: r7 => some (acc2, r7)
            | _ => none
        | _ => none
    | _ => none

def jsonArrItems : Nat → List JVal → List Char → Option (List JVal × List Char)
  | 0, _, _ => none
  | n + 1, acc, cs =>
    match jsonValue n cs with
    | none => none
    | some (v, r) =>
      match r.dropWhile jsonWs with
      | ',' :: r2 => jsonArrItems n (acc ++ [v]) (r2.dropWhile jsonWs)
      | ']' :: r2 => some (acc ++ [v], r2)
      | _ => none

end

/-- Model of `json.loads` on the subset described above. -/
def jsonLoads (s : String) : Option JVal :=
  let cs := s.toList
  match jsonValue (cs.length + 2) cs with
  | some (v, rest) => if (rest.dropWhile jsonWs).isEmpty then some v else none
  | none => none

mutual

/-- Python `repr()` of a loaded JSON value (used by `str()` on
containers). -/
def pyReprOf : JVal → String
  | .null => "None"
  | .bool true => "True"
  | .bool false => "False"
  | .int n => toString n
  | .str s => String.singleton '\'' ++ s ++ String.singleton '\''
  | .arr xs => "[" ++ pyReprList xs ++ "]"
  | .obj kvs => "\x7b" ++ pyReprObj kvs ++ "\x7d"

def pyReprList : List JVal → String
  | [] => ""
  | [x] => pyReprOf x
  | x :: xs => pyReprOf x ++ ", " ++ pyReprList xs

def pyReprObj : List (String × JVal) → String
  | [] => ""
  | [kv] => String.singleton '\'' ++ kv.1 ++ String.singleton '\'' ++ ": " ++ pyReprOf kv.2
  | kv :: r => String.singleton '\'' ++ kv.1 ++ String.singleton '\'' ++ ": " ++ pyReprOf kv.2 ++ ", " ++ pyReprObj r

end

/-- Python `str()` of a loaded JSON value (`str(d.member_id)` in
src/extractor.py:282). -/
def pyStrOf : JVal → String
  | .str s => s
  | v => pyReprOf v

/-! ### The record (`ConversationData`) and the assembler -/

/-- src/extractor.py:9-29.  The dataclass annotates every field
`Optional[str]`, but the JSON fast path stores loaded values verbatim, so
the field type here is `Option JVal`; the heuristic pipeline only ever
stores `JVal.str` values. -/
structure ConversationData where
  timestamp : Option JVal := none
  sentiment : Option JVal := none
  member_id : Option JVal := none
  first_name : Option JVal := none
  last_name : Option JVal := none
  dob : Option JVal := none
  address : Option JVal := none
  city : Option JVal := none
  state : Option JVal := none
  zip_code : Option JVal := none
  address_status : Option JVal := none
  member_status : Option JVal := none
  start_date : Option JVal := none
  end_date : Option JVal := none
  health_plan : Option JVal := none
  contract_type : Option JVal := none
  codes : Option JVal := none
  change_request : Option JVal := none
  raw_text : Option JVal := none

/-- The sixteen record fields reachable through the JSON key allow-list
(`mapping`, src/extractor.py:254-274); `timestamp`, `sentiment` and
`raw_text` are not among them. -/
inductive FieldTarget where
  | member_id | first_name | last_name | dob | address | city | state
  | zip_code | address_status | member_status | start_date | end_date
  | health_plan | contract_type | codes | change_request

/-- The key allow-list of src/extractor.py:254-274. -/
def keyTarget (k : String) : Option FieldTarget :=
  if k = "member_id" then some .member_id
  else if k = "first_name" then some .first_name
  else if k = "last_name" then some .last_name
  else if k = "dob" then some .dob
  else if k = "address" then some .address
  else if k = "city" then some .city
  else if k = "state" then some .state
  else if k = "zip" then some .zip_code
  else if k = "zip_code" then some .zip_code
  else if k = "address_status" then some .address_status
  else if k = "status" then some .member_status
  else if k = "member_status" then some .member_status
  else if k = "start_date" then some .start_date
  else if k = "end_date" then some .end_date
  else if k = "plan" then some .health_plan
  else if k = "health_plan" then some .health_plan
  else if k = "contract_type" then some .contract_type
  else if k = "codes" then some .codes
  else if k = "change_request" then some .change_request
  else none

def setField (d : ConversationData) (f : FieldTarget) (v : Option JVal) : ConversationData :=
  match f with
  | .member_id => { d with member_id := v }
  | .first_name => { d with first_name := v }
  | .last_name => { d with last_name := v }
  | .dob => { d with dob := v }
  | .address => { d with address := v }
  | .city => { d with city := v }
  | .state => { d with state := v }
  | .zip_code => { d with zip_code := v }
  | .address_status => { d with address_status := v }
  | .member_status => { d with member_status := v }
  | .start_date => { d with start_date := v }
  | .end_date => { d with end_date := v }
  | .health_plan => { d with health_plan := v }
  | .contract_type => { d with contract_type := v }
  | .codes => { d with codes := v }
  | .change_request => { d with change_request := v }

/-- `setattr(d, mapping[k], v)`: a JSON `null` is Python `None`, i.e. the
field becomes absent. -/
def jsonFieldVal : JVal → Option JVal
  | .null => none
  | v => some v

/-- The copy loop `for k, v in obj.items()` of src/extractor.py:275-277. -/
def applyKVs (d : ConversationData) : List (String × JVal) → ConversationData
  | [] => d
  | (k, v) :: rest =>
    let d2 :=
      match keyTarget k with
      | some f => setField d f (jsonFieldVal v)
      | none => d
    applyKVs d2 rest

/-- src/extractor.py:278-280: default `address_status` to `"missing"`
when both it and `address` are absent. -/
def jsonDefaults (d : ConversationData) : ConversationData :=
  match d.address_status with
  | none =>
    match d.address with
    | none => { d with address_status := some (.str "missing") }
    | some _ => d
  | some _ => d

/-- src/extractor.py:281-282: coerce a present `member_id` through
Python's `str()`. -/
def jsonCoerce (d : ConversationData) : ConversationData :=
  match d.member_id with
  | none => d
  | some v => { d with member_id := some (.str (pyStrOf v)) }

/-- src/extractor.py:240-285, with `now_ts()` as the parameter `now`. -/
def try_parse_json (now text : String) : Option ConversationData :=
  if text = "" || pyStrip text = "" then none
  else
    let ts := pyStrip text
    if !(startsWithL "\x7b".toList ts.toList) then none
    else
      match jsonLoads ts with
      | some (.obj kvs) =>
        let d0 : ConversationData :=
          { timestamp := some (.str now),
            sentiment := some (.str (analyze_sentiment (pyTake 200 ts))),
            raw_text := some (.str (pyTake 200 ts)) }
        some (jsonCoerce (jsonDefaults (applyKVs d0 kvs)))
      | _ => none

/-- Python `str.splitlines()` on the ASCII line boundaries `\n`, `\r`,
`\r\n`, `\v`, `\f`; no piece after a terminal boundary, and the empty
string yields no lines. -/
def splitlinesGo : List Char → List Char → List (List Char)
  | acc, [] => [acc.reverse]
  | acc, '\r' :: '\n' :: r =>
    acc.reverse :: (match r with | [] => [] | _ => splitlinesGo [] r)
  | acc, c :: r =>
    if c = '\n' || c = '\r' || c = '\x0b' || c = '\x0c' then
      acc.reverse :: (match r with | [] => [] | _ => splitlinesGo [] r)
    else splitlinesGo (c :: acc) r

def pySplitlinesL (cs : List Char) : List (List Char) :=
  match cs with
  | [] => []
  | _ => splitlinesGo [] cs

/-- src/extractor.py:302-303: strip each line, drop the blank ones, join
with newlines, then collapse all whitespace runs to single spaces. -/
def compactOf (text : String) : String :=
  let lines := ((pySplitlinesL text.toList).map pyStripL).filter (fun l => !l.isEmpty)
  let joined := String.intercalate "\n" (lines.map List.asString)
  String.intercalate " " (pySplitWs joined.toList)

/-- src/extractor.py:287-368, with `now_ts()` as the parameter `now`.
The mutation sequence of the source is rendered as one record literal;
in the non-override address branch the source's `if data.address_status
is None` test is vacuously true (nothing assigned it earlier). -/
def extract_attributes (now text : String) : ConversationData :=
  match try_parse_json now text with
  | some jd =>
    match jd.change_request with
    | none => { jd with change_request := (extract_change_request text).map JVal.str }
    | some _ => jd
  | none =>
    if text = "" || pyStrip text = "" then {}
    else
      let compact := compactOf text
      let names := extract_names text
      let u := unchangedSearch true text
      let acsz := extract_address_city_state_zip text
      let rawStatus := extract_member_status text
      { raw_text := some (.str (pyTake 200 (pyStrip text))),
        timestamp := some (.str now),
        sentiment := some (.str (analyze_sentiment text)),
        member_id := (extract_member_id compact).map .str,
        first_name := names.1.map .str,
        last_name := names.2.map .str,
        dob := (dobField text).map .str,
        address := if u then none else acsz.1.map .str,
        city := if u then none else acsz.2.1.map .str,
        state := if u then none else acsz.2.2.1.map .str,
        zip_code := if u then none else acsz.2.2.2.map .str,
        address_status :=
          some (.str (if u then "unchanged" else if acsz.1.isSome then "updated" else "missing")),
        member_status :=
          (match rawStatus with
           | none => none
           | some s => if s = "" then none else (normalize_status (some s)).map .str),
        start_date := (startDateField text).map .str,
        end_date := (endDateField text).map .str,
        health_plan := (extract_plan text).map .str,
        contract_type := (extract_contract text).map .str,
        codes := (extract_codes text).map .str,
        change_request := (extract_change_request text).map .str }

/-! ### Specification-side notions -/

/-- First-occurrence deduplication, stated independently of the source's
seen/out loop: keep the head (the first occurrence of its value) and
delete every later duplicate of it before recursing.  This is the
specification-side meaning of "duplicates removed, first-occurrence
order preserved". -/
def keepFirsts : List String → List String
  | [] => []
  | x :: xs => x :: keepFirsts (xs.filter (fun y => y ≠ x))
termination_by l => l.length
decreasing_by
  simp only [List.length_cons]
  exact Nat.lt_succ_of_le (List.length_filter_le _ _)

/-- The shape §3 of the spec asserts for a present `codes` value,
relative to the token list `tokens` actually scanned: the value joins,
with comma+space, exactly the first-occurrence deduplication of
`tokens`; consequently the joined list is a nonempty duplicate-free
subsequence of `tokens` with the same members, made of 3–6-digit
numeric tokens. -/
def CodesJoinOfTokens (tokens : List String) (s : String) : Prop :=
  s = String.intercalate ", " (keepFirsts tokens) ∧
  (keepFirsts tokens).Sublist tokens ∧ (keepFirsts tokens).Nodup ∧
  (∀ x, x ∈ tokens ↔ x ∈ keepFirsts tokens) ∧ keepFirsts tokens ≠ [] ∧
  (∀ c ∈ keepFirsts tokens,
    3 ≤ c.toList.length ∧ c.toList.length ≤ 6 ∧ c.toList.all Char.isDigit = true)

/-- Two records agree on every field except `timestamp`. -/
def AgreeExceptTimestamp (a b : ConversationData) : Prop :=
  a.sentiment = b.sentiment ∧ a.member_id = b.member_id ∧ a.first_name = b.first_name ∧
  a.last_name = b.last_name ∧ a.dob = b.dob ∧ a.address = b.address ∧ a.city = b.city ∧
  a.state = b.state ∧ a.zip_code = b.zip_code ∧ a.address_status = b.address_status ∧
  a.member_status = b.member_status ∧ a.start_date = b.start_date ∧
  a.end_date = b.end_date ∧ a.health_plan = b.health_plan ∧
  a.contract_type = b.contract_type ∧ a.codes = b.codes ∧
  a.change_request = b.change_request ∧ a.raw_text = b.raw_text

/-! ### Helper lemmas -/

theorem dedupFirst_mem {x : String} :
    ∀ {l seen : List String}, x ∈ dedupFirst seen l ↔ x ∈ l ∧ x ∉ seen := by
  intro l
  induction l with
  | nil => intro seen; simp [dedupFirst]
  | cons c cs ih =>
    intro seen
    by_cases hc : c ∈ seen
    · simp only [dedupFirst, if_pos hc, ih, List.mem_cons]
      constructor
      · exact fun ⟨h1, h2⟩ => ⟨Or.inr h1, h2⟩
      · rintro ⟨h1 | h1, h2⟩
        · exact absurd (h1 ▸ hc) h2
        · exact ⟨h1, h2⟩
    · simp only [dedupFirst, if_neg hc, List.mem_cons, ih]
      constructor
      · rintro (rfl | ⟨h1, h2⟩)
        · exact ⟨Or.inl rfl, hc⟩
        · exact ⟨Or.inr h1, fun hx => h2 (Or.inr hx)⟩
      · rintro ⟨rfl | h1, h2⟩
        · exact Or.inl rfl
        · by_cases hxc : x = c
          · exact Or.inl hxc
          · exact Or.inr ⟨h1, fun hx => hx.elim hxc h2⟩

theorem dedupFirst_nodup : ∀ (l seen : List String), (dedupFirst seen l).Nodup := by
  intro l
  induction l with
  | nil => intro seen; simp [dedupFirst]
  | cons c cs ih =>
    intro seen
    by_cases hc : c ∈ seen
    · simpa only [dedupFirst, if_pos hc] using ih seen
    · simp only [dedupFirst, if_neg hc, List.nodup_cons]
      refine ⟨fun hmem => ?_, ih _⟩
      exact (dedupFirst_mem.mp hmem).2 (List.mem_cons_self c seen)

theorem dedupFirst_sublist : ∀ (l seen : List String), (dedupFirst seen l).Sublist l := by
  intro l
  induction l with
  | nil => intro seen; simp [dedupFirst]
  | cons c cs ih =>
    intro seen
    by_cases hc : c ∈ seen
    · simpa only [dedupFirst, if_pos hc] using (ih seen).cons c
    · simpa only [dedupFirst, if_neg hc] using (ih (c :: seen)).cons₂ c

theorem head_dropWhile_false (p : Char → Bool) :
    ∀ (l : List Char) (c : Char), (l.dropWhile p).head? = some c → p c = false := by
  intro l
  induction l with
  | nil => intro c h; simp [List.dropWhile] at h
  | cons a as ih =>
    intro c h
    by_cases ha : p a
    · rw [List.dropWhile_cons_of_pos ha] at h
      exact ih c h
    · rw [List.dropWhile_cons_of_neg ha] at h
      cases h
      exact Bool.eq_false_iff.mpr ha

theorem pyStripL_last_not_space {l : List Char} {c : Char}
    (h : (pyStripL l).getLast? = some c) : pySpace c = false := by
  unfold pyStripL stripRightL at h
  rw [List.getLast?_reverse] at h
  exact head_dropWhile_false pySpace _ c h

theorem getLast?_of_drop_singleton {l : List Char} {k : Nat} {a : Char}
    (h : l.drop k = [a]) : l.getLast? = some a := by
  have hl : l = l.take k ++ [a] := by rw [← h, List.take_append_drop]
  rw [hl, List.getLast?_concat]

theorem pyStripL_drop_ne_nl (l : List Char) (k : Nat) : (pyStripL l).drop k ≠ ['\n'] := by
  intro h
  have := pyStripL_last_not_space (getLast?_of_drop_singleton h)
  simp [pySpace] at this

theorem matchDigits36_shape {l : List Char} (h : matchDigits36 l = true)
    (hnl : ∀ k, l.drop k ≠ ['\n']) :
    3 ≤ l.length ∧ l.length ≤ 6 ∧ l.all Char.isDigit = true := by
  unfold matchDigits36 at h
  rw [List.any_eq_true] at h
  obtain ⟨k, hk, hcond⟩ := h
  rw [Bool.and_eq_true, Bool.and_eq_true] at hcond
  obtain ⟨⟨h1, h2⟩, h3⟩ := hcond
  rw [decide_eq_true_eq] at h1
  have hdrop : l.drop k = [] := by
    rw [Bool.or_eq_true] at h3
    rcases h3 with h3 | h3
    · exact List.isEmpty_iff.mp h3
    · exact absurd (by simpa using h3) (hnl k)
  have hlen : l.length = k :=
    le_antisymm (List.drop_eq_nil_iff.mp hdrop) h1
  have htake : l.take k = l := List.take_of_length_le hlen.le
  have hk36 : 3 ≤ k ∧ k ≤ 6 := by
    simp only [List.mem_cons, List.not_mem_nil, or_false] at hk
    rcases hk with rfl | rfl | rfl | rfl <;> omega
  exact ⟨hlen ▸ hk36.1, hlen ▸ hk36.2, htake ▸ h2⟩

theorem dedupFirst_eq_keepFirsts :
    ∀ (l seen : List String),
      dedupFirst seen l = keepFirsts (l.filter (fun x => x ∉ seen)) := by
  intro l
  induction l with
  | nil => intro seen; simp [dedupFirst, keepFirsts]
  | cons c cs ih =>
    intro seen
    by_cases hc : c ∈ seen
    · have hfc : List.filter (fun x => decide (x ∉ seen)) (c :: cs) =
          List.filter (fun x => decide (x ∉ seen)) cs := by
        simp [List.filter_cons, hc]
      simp only [dedupFirst, if_pos hc]
      rw [hfc]
      exact ih seen
    · have hfc : List.filter (fun x => decide (x ∉ seen)) (c :: cs) =
          c :: List.filter (fun x => decide (x ∉ seen)) cs := by
        simp [List.filter_cons, hc]
      simp only [dedupFirst, if_neg hc]
      rw [hfc, keepFirsts, ih (c :: seen), List.filter_filter]
      congr 1
      congr 1
      apply List.filter_congr
      intro x _
      by_cases h1 : x = c
      · simp [h1]
      · by_cases h2 : x ∈ seen <;> simp [h1, h2]

theorem dedupFirst_nil_eq_keepFirsts (l : List String) :
    dedupFirst [] l = keepFirsts l := by
  rw [dedupFirst_eq_keepFirsts]
  congr 1
  apply List.filter_eq_self.mpr
  intro x _
  simp

/-- `extract_codes`, whenever it returns a value, joins exactly the
first-occurrence deduplication of the token list its scan produced. -/
theorem extract_codes_spec_shape :
    ∀ (t s : String), extract_codes t = some s →
      ∃ raw : String, codesScan t.toList = some raw ∧
        CodesJoinOfTokens (codesTokens raw) s := by
  intro t s h
  unfold extract_codes at h
  split at h
  · exact absurd h (by simp)
  · revert h
    cases hscan : codesScan t.toList with
    | none => intro h; exact absurd h (by simp)
    | some raw =>
      intro h
      simp only at h
      set toks := codesTokens raw with htoks
      by_cases hemp : toks.isEmpty
      · rw [if_pos hemp] at h; exact absurd h (by simp)
      · rw [if_neg hemp] at h
        have hkf : dedupFirst [] toks = keepFirsts toks := dedupFirst_nil_eq_keepFirsts toks
        have hs : s = String.intercalate ", " (keepFirsts toks) := by
          rw [← hkf]
          exact (Option.some.inj h).symm
        refine ⟨raw, rfl, hs, hkf ▸ dedupFirst_sublist toks [], hkf ▸ dedupFirst_nodup toks [],
          ?_, ?_, ?_⟩
        · intro x
          rw [← hkf, dedupFirst_mem]
          simp
        · rw [← hkf]
          cases htk : toks with
          | nil => rw [htk] at hemp; simp at hemp
          | cons c cs =>
            simp only [dedupFirst, List.not_mem_nil, if_neg (fun h => h)]
            exact List.cons_ne_nil c _
        · intro c hc
          rw [← hkf] at hc
          have hctoks : c ∈ toks := (dedupFirst_mem.mp hc).1
          rw [htoks, codesTokens, List.mem_filterMap] at hctoks
          obtain ⟨p, _, hp⟩ := hctoks
          by_cases hm : matchDigits36 (pyStripL p)
          · rw [if_pos hm] at hp
            have hcp : c = (pyStripL p).asString := (Option.some.inj hp).symm
            have hcl : c.toList = pyStripL p := by rw [hcp]; rfl
            rw [hcl]
            exact matchDigits36_shape hm (pyStripL_drop_ne_nl p)
          · rw [if_neg hm] at hp
            cases hp

/-- Forget the timestamp: two records agree on everything else iff their
erasures are equal. -/
def eraseTs (d : ConversationData) : ConversationData := { d with timestamp := none }

theorem eraseTs_eq_aet {a b : ConversationData} (h : eraseTs a = eraseTs b) :
    AgreeExceptTimestamp a b := by
  cases a
  cases b
  simp only [eraseTs, ConversationData.mk.injEq] at h
  exact h.2

theorem eraseTs_setField (d : ConversationData) (f : FieldTarget) (v : Option JVal) :
    eraseTs (setField d f v) = setField (eraseTs d) f v := by
  cases f <;> rfl

theorem eraseTs_applyKVs (kvs : List (String × JVal)) :
    ∀ d : ConversationData, eraseTs (applyKVs d kvs) = applyKVs (eraseTs d) kvs := by
  induction kvs with
  | nil => intro d; rfl
  | cons kv rest ih =>
    intro d
    cases kv with
    | mk k v =>
      simp only [applyKVs]
      cases keyTarget k with
      | none => exact ih d
      | some f =>
        simp only []
        rw [ih (setField d f (jsonFieldVal v)), eraseTs_setField]

theorem eraseTs_jsonDefaults {d d' : ConversationData} (h : eraseTs d = eraseTs d') :
    eraseTs (jsonDefaults d) = eraseTs (jsonDefaults d') := by
  obtain ⟨t1, s1, mi1, fn1, ln1, db1, ad1, ci1, st1, zp1, as1, ms1, sd1, ed1, hp1, ct1, co1, cr1, rt1⟩ := d
  obtain ⟨t2, s2, mi2, fn2, ln2, db2, ad2, ci2, st2, zp2, as2, ms2, sd2, ed2, hp2, ct2, co2, cr2, rt2⟩ := d'
  simp only [eraseTs, ConversationData.mk.injEq, true_and] at h
  obtain ⟨rfl, rfl, rfl, rfl, rfl, rfl, rfl, rfl, rfl, rfl, rfl, rfl, rfl, rfl, rfl, rfl, rfl, rfl⟩ := h
  cases as1 <;> cases ad1 <;> rfl

theorem eraseTs_jsonCoerce {d d' : ConversationData} (h : eraseTs d = eraseTs d') :
    eraseTs (jsonCoerce d) = eraseTs (jsonCoerce d') := by
  obtain ⟨t1, s1, mi1, fn1, ln1, db1, ad1, ci1, st1, zp1, as1, ms1, sd1, ed1, hp1, ct1, co1, cr1, rt1⟩ := d
  obtain ⟨t2, s2, mi2, fn2, ln2, db2, ad2, ci2, st2, zp2, as2, ms2, sd2, ed2, hp2, ct2, co2, cr2, rt2⟩ := d'
  simp only [eraseTs, ConversationData.mk.injEq, true_and] at h
  obtain ⟨rfl, rfl, rfl, rfl, rfl, rfl, rfl, rfl, rfl, rfl, rfl, rfl, rfl, rfl, rfl, rfl, rfl, rfl⟩ := h
  cases mi1 <;> rfl

theorem tpj_eraseTs (t n₁ n₂ : String) :
    (try_parse_json n₁ t).map eraseTs = (try_parse_json n₂ t).map eraseTs := by
  unfold try_parse_json
  by_cases h1 : (decide (t = "") || decide (pyStrip t = "")) = true
  · rw [if_pos h1, if_pos h1]
  · rw [if_neg h1, if_neg h1]
    dsimp only
    by_cases h2 : (!startsWithL "\x7b".toList (pyStrip t).toList) = true
    · rw [if_pos h2, if_pos h2]
    · rw [if_neg h2, if_neg h2]
      cases jsonLoads (pyStrip t) with
      | none => rfl
      | some v =>
        cases v with
        | obj kvs =>
          simp only [Option.map_some']
          have h0 : eraseTs (applyKVs
              ({ timestamp := some (.str n₁),
                 sentiment := some (.str (analyze_sentiment (pyTake 200 (pyStrip t)))),
                 raw_text := some (.str (pyTake 200 (pyStrip t))) } : ConversationData) kvs) =
              eraseTs (applyKVs
              ({ timestamp := some (.str n₂),
                 sentiment := some (.str (analyze_sentiment (pyTake 200 (pyStrip t)))),
                 raw_text := some (.str (pyTake 200 (pyStrip t))) } : ConversationData) kvs) := by
            rw [eraseTs_applyKVs, eraseTs_applyKVs]
            rfl
          rw [eraseTs_jsonCoerce (eraseTs_jsonDefaults h0)]
        | null => rfl
        | bool b => rfl
        | int n => rfl
        | str s => rfl
        | arr xs => rfl

theorem eraseTs_set_cr {d d' : ConversationData} (h : eraseTs d = eraseTs d')
    (x : Option JVal) :
    eraseTs { d with change_request := x } = eraseTs { d' with change_request := x } := by
  obtain ⟨t1, s1, mi1, fn1, ln1, db1, ad1, ci1, st1, zp1, as1, ms1, sd1, ed1, hp1, ct1, co1, cr1, rt1⟩ := d
  obtain ⟨t2, s2, mi2, fn2, ln2, db2, ad2, ci2, st2, zp2, as2, ms2, sd2, ed2, hp2, ct2, co2, cr2, rt2⟩ := d'
  simp only [eraseTs, ConversationData.mk.injEq, true_and] at h
  obtain ⟨rfl, rfl, rfl, rfl, rfl, rfl, rfl, rfl, rfl, rfl, rfl, rfl, rfl, rfl, rfl, rfl, rfl, rfl⟩ := h
  rfl

/-! ### Claim theorems -/

/-- The JSON input of claim C1. -/
def jsonInputC1 : String := "\x7b\"member_id\": 4455667, \"first_name\": \"Jane\"\x7d"

/-- C1 (counterexample): on the JSON input of the claim, the field
`address_status` was not specified in the JSON object, yet it is not
absent — the fast path defaults it to `"missing"` when both it and
`address` are missing from the object.  This refutes "every field other
than timestamp, sentiment, and raw_text that was not specified in the
JSON object absent" as stated. -/
theorem C1_counterexample :
    (extract_attributes "" jsonInputC1).address_status = some (.str "missing") ∧
    (extract_attributes "" jsonInputC1).address_status ≠ none := by
  refine ⟨rfl, fun h => ?_⟩
  rw [show (extract_attributes "" jsonInputC1).address_status = some (.str "missing")
      from rfl] at h
  cases h

/-- C1 (amended): for the JSON input
`{"member_id": 4455667, "first_name": "Jane"}`, the record has
member_id "4455667" (the number coerced to its string form), first_name
"Jane", address_status defaulted to "missing", and every other field
absent except timestamp, sentiment ("Neutral") and raw_text (the JSON
text). -/
theorem C1_amended (now : String) :
    extract_attributes now jsonInputC1 =
      { timestamp := some (.str now), sentiment := some (.str "Neutral"),
        member_id := some (.str "4455667"), first_name := some (.str "Jane"),
        last_name := none, dob := none, address := none, city := none, state := none,
        zip_code := none, address_status := some (.str "missing"), member_status := none,
        start_date := none, end_date := none, health_plan := none, contract_type := none,
        codes := none, change_request := none, raw_text := some (.str jsonInputC1) } := rfl

/-- C2 (code bug, evaluated at the failing input "status: inactive"):
the status scan itself classifies the snippet as INACTIVE, but the
assembler then routes the result through `normalize_status`, whose
ACTIVE check is a substring test — and "active" is a substring of
"inactive" — so the record ends up with member_status "ACTIVE", not the
"INACTIVE" the claim (and the extractor's own priority order) call
for. -/
theorem C2_inactive_clobbered (now : String) :
    extract_member_status "status: inactive" = some "INACTIVE" ∧
    normalize_status (some "INACTIVE") = some "ACTIVE" ∧
    (extract_attributes now "status: inactive").member_status = some (.str "ACTIVE") :=
  ⟨rfl, rfl, rfl⟩

/-- C3 (counterexample): for "member 12345" the member id is not absent —
the labeled pattern, whose digit run needs only 4 to 12 digits, matches
the word "member" as a label, so the extractor returns "12345". -/
theorem C3_counterexample :
    (extract_attributes "" "member 12345").member_id = some (.str "12345") := rfl

/-- C3 (amended): for "member 12345" the labeled member-id pattern (4–12
digits after a member token) matches first, so member_id is "12345"; the
bare pattern's 6-digit minimum never comes into play. -/
theorem C3_amended (now : String) :
    extract_member_id "member 12345" = some "12345" ∧
    (extract_attributes now "member 12345").member_id = some (.str "12345") :=
  ⟨rfl, rfl⟩

/-- C4: on every non-JSON, non-blank input matched by the
address-unchanged phrasing pattern, the assembler short-circuits:
address_status is "unchanged" and all four address sub-fields are
absent, whatever address-shaped substrings the text contains. -/
theorem C4_unchanged_override (now t : String)
    (hjson : try_parse_json now t = none) (hne : pyStrip t ≠ "")
    (hu : unchangedSearch true t = true) :
    (extract_attributes now t).address_status = some (.str "unchanged") ∧
    (extract_attributes now t).address = none ∧
    (extract_attributes now t).city = none ∧
    (extract_attributes now t).state = none ∧
    (extract_attributes now t).zip_code = none := by
  have hcond : (decide (t = "") || decide (pyStrip t = "")) = false := by
    simp only [Bool.or_eq_false_iff, decide_eq_false_iff_not]
    refine ⟨fun ht => hne ?_, hne⟩
    rw [ht]
    rfl
  unfold extract_attributes
  rw [hjson]
  simp only [hcond, Bool.false_eq_true, if_false, hu, if_true]
  exact ⟨trivial, trivial, trivial, trivial, trivial⟩

/-- C4 (witness): the spec's concrete input satisfies the hypotheses,
and the override fires on it. -/
theorem C4_witness :
    try_parse_json "2024" "Address same on file, 123 Main St, Springfield IL 62704" = none ∧
    pyStrip "Address same on file, 123 Main St, Springfield IL 62704" ≠ "" ∧
    unchangedSearch true "Address same on file, 123 Main St, Springfield IL 62704" = true ∧
    (extract_attributes "2024" "Address same on file, 123 Main St, Springfield IL 62704").address_status
      = some (.str "unchanged") ∧
    (extract_attributes "2024" "Address same on file, 123 Main St, Springfield IL 62704").address = none ∧
    (extract_attributes "2024" "Address same on file, 123 Main St, Springfield IL 62704").city = none ∧
    (extract_attributes "2024" "Address same on file, 123 Main St, Springfield IL 62704").state = none ∧
    (extract_attributes "2024" "Address same on file, 123 Main St, Springfield IL 62704").zip_code = none := by
  have h := C4_unchanged_override "2024"
    "Address same on file, 123 Main St, Springfield IL 62704" rfl (by decide) rfl
  exact ⟨rfl, by decide, rfl, h.1, h.2.1, h.2.2.1, h.2.2.2.1, h.2.2.2.2⟩

/-- C5: for "Member was active, now termed effective 5/1/2024" the
termination token anywhere in the text overrides the matched "active"
snippet (member_status "TERMINATED"), and the termination-anchored
end-date pattern captures "5/1/2024". -/
theorem C5_termination_precedence (now : String) :
    (extract_attributes now "Member was active, now termed effective 5/1/2024").member_status
      = some (.str "TERMINATED") ∧
    (extract_attributes now "Member was active, now termed effective 5/1/2024").end_date
      = some (.str "5/1/2024") :=
  ⟨rfl, rfl⟩

/-- The JSON input witnessing claim C6's failure. -/
def jsonInputC6 : String := "\x7b\"dob\": 123\x7d"

/-- C6 (code bug, evaluated at the failing input): the JSON fast path
copies loaded values verbatim through the allow-list, so the input
stores the JSON number 123 — not a string — in `dob`, contrary to the
claim (and to the dataclass's own Optional[str] annotations); only
member_id is coerced with str(). -/
theorem C6_nonstring_field (now : String) :
    (extract_attributes now jsonInputC6).dob = some (.int 123) ∧
    ∀ s : String, (extract_attributes now jsonInputC6).dob ≠ some (.str s) := by
  refine ⟨rfl, fun s h => ?_⟩
  rw [show (extract_attributes now jsonInputC6).dob = some (.int 123) from rfl] at h
  exact JVal.noConfusion (Option.some.inj h)

/-- C7: whenever `extract_codes` yields a value, that value is the
comma+space join of the first-occurrence deduplication (`keepFirsts`) of
the very token list its scan produced — hence a nonempty, duplicate-free,
order-preserving (Sublist, same members) selection of the scanned
3–6-digit tokens — and on "codes: 123, 123, 456" the record's codes
field is "123, 456". -/
theorem C7_codes_shape :
    (∀ t s : String, extract_codes t = some s →
      ∃ raw : String, codesScan t.toList = some raw ∧
        CodesJoinOfTokens (codesTokens raw) s) ∧
    (∀ now : String,
      (extract_attributes now "codes: 123, 123, 456").codes = some (.str "123, 456")) :=
  ⟨extract_codes_spec_shape, fun _ => rfl⟩

/-- C7 (witness): the universal part applied at the concrete input. -/
theorem C7_witness :
    ∃ raw : String, codesScan "codes: 123, 123, 456".toList = some raw ∧
      CodesJoinOfTokens (codesTokens raw) "123, 456" :=
  C7_codes_shape.1 "codes: 123, 123, 456" "123, 456" rfl

/-- C8: two extractions of the same text agree on every field except
the injected timestamp. -/
theorem C8_reproducible (t n₁ n₂ : String) :
    AgreeExceptTimestamp (extract_attributes n₁ t) (extract_attributes n₂ t) := by
  apply eraseTs_eq_aet
  have h := tpj_eraseTs t n₁ n₂
  unfold extract_attributes
  cases h1 : try_parse_json n₁ t with
  | none =>
    cases h2 : try_parse_json n₂ t with
    | none =>
      by_cases hb : (decide (t = "") || decide (pyStrip t = "")) = true
      · rw [if_pos hb, if_pos hb]
      · rw [if_neg hb, if_neg hb]
        rfl
    | some d2 =>
      rw [h1, h2] at h
      simp at h
  | some d1 =>
    cases h2 : try_parse_json n₂ t with
    | none =>
      rw [h1, h2] at h
      simp at h
    | some d2 =>
      rw [h1, h2] at h
      simp only [Option.map_some'] at h
      replace h : eraseTs d1 = eraseTs d2 := Option.some.inj h
      have hcr : d1.change_request = d2.change_request :=
        @congrArg _ _ (eraseTs d1) (eraseTs d2) ConversationData.change_request h
      dsimp only
      rw [hcr]
      cases d2.change_request with
      | none => exact eraseTs_set_cr h _
      | some v => exact h

/-- C9: a blank (empty or whitespace-only) input yields the default
record, with every one of the nineteen fields absent. -/
theorem C9_blank_absent (now t : String) (h : pyStrip t = "") :
    extract_attributes now t = {} := by
  have hb : (decide (t = "") || decide (pyStrip t = "")) = true := by
    simp [h]
  unfold extract_attributes try_parse_json
  rw [hb]
  simp

/-- C9 (witness): the whitespace-only input "   " yields the all-absent
record. -/
theorem C9_witness : pyStrip "   " = "" ∧ extract_attributes "2024" "   " = {} :=
  ⟨rfl, C9_blank_absent "2024" "   " rfl⟩

/-- C10: in "please remember 1234" the letters of "member" occur only
inside the word "remember" (the standalone-word search fails), yet the
labeled member-id pattern, having no word boundary, matches there and
returns "1234". -/
theorem C10_embedded_member_token (now : String) :
    extract_member_id "please remember 1234" = some "1234" ∧
    (extract_attributes now "please remember 1234").member_id = some (.str "1234") ∧
    wordSearchCI "member" ("please remember 1234".toList) = false ∧
    containsSub "member".toList (lowerList "please remember 1234".toList) = true :=
  ⟨rfl, rfl, rfl, rfl⟩

end ChatExtractor
